import Mathlib

/-!
Verification development for the Palo Alto firewall policy translation engine
(`capirca/lib/paloaltofw.py`).  The Python source is shallowly embedded:
mutable dictionaries become insertion-ordered association lists, exceptions
become `Except` values, and the per-term translation loop becomes explicit
state passing.  Machine-independent types (strings, naturals) model the
Python values directly.
-/

set_option maxRecDepth 16000

set_option maxHeartbeats 1600000

namespace PaloAlto

/-- Typed failures, mirroring the exception classes declared at the top of
`paloaltofw.py` (`UnsupportedFilterError`, `PaloAltoFWDuplicateTermError`,
`PaloAltoFWDuplicateServiceError`, ...). -/
inductive PErr where
  | unsupportedFilter (msg : String)
  | unsupportedHeader (msg : String)
  | duplicateTerm (msg : String)
  | unsupportedProtocol (msg : String)
  | optionError (msg : String)
  | duplicateService (msg : String)
  | nameTooLong (msg : String)
  | badIcmpType (msg : String)
  deriving DecidableEq, Repr

/-- The `filter_type` header option; `_SUPPORTED_AF = {inet, inet6, mixed}`.
The header-level check rejects anything else, so the embedding uses a closed
enumeration. -/
inductive FilterType where
  | inet
  | inet6
  | mixed
  deriving DecidableEq, Repr

/-- A concrete network object as delivered by the (external) naming layer.
The generator reads `addr.version`, `addr.parent_token`, `str(addr)` (the
`text` field) and the `supernet_of` relation; the latter is modelled on the
inclusive numeric address range `[lo, hi]` of the network. -/
structure IPAddr where
  version : Nat
  parent_token : String
  lo : Nat
  hi : Nat
  text : String
  deriving DecidableEq, Repr

/-- `a.supernet_of b`: `a` contains the range of `b` (same IP version), as in
the Python `ipaddress` library used by `nacaddr`. -/
def supernet_of (a b : IPAddr) : Bool :=
  a.version == b.version && decide (a.lo ≤ b.lo) && decide (b.hi ≤ a.hi)

/-- `b` is a strict subnet of `a`: contained in `a` but a different network. -/
def strictSubnetOf (b a : IPAddr) : Bool :=
  supernet_of a b && !(a.lo == b.lo && a.hi == b.hi)

/-- The fields of a `policy.Term` object that `paloaltofw.py` reads or
writes.  Dates (`expiration`) are modelled as day numbers. -/
structure PolTerm where
  name : String
  comment : List String
  source_address : List IPAddr
  destination_address : List IPAddr
  source_address_exclude : List IPAddr
  destination_address_exclude : List IPAddr
  protocol : List String
  destination_port : List (Nat × Nat)
  pan_application : List String
  icmp_type : List String
  action : List String
  option : List String
  logging : List String
  expiration : Option Nat
  stateless_reply : Bool
  deriving DecidableEq, Repr

/-- Lookup in an insertion-ordered association list (a Python `dict` /
`OrderedDict`). -/
def assocGet {β : Type} (l : List (String × β)) (k : String) : Option β :=
  match l with
  | [] => none
  | (k', v) :: rest => if k' = k then some v else assocGet rest k

/-- `d[k] = v` on an insertion-ordered association list: an existing key keeps
its position, a new key is appended, exactly as for a Python dict. -/
def assocSet {β : Type} (l : List (String × β)) (k : String) (v : β) :
    List (String × β) :=
  match l with
  | [] => [(k, v)]
  | (k', v') :: rest =>
      if k' = k then (k, v) :: rest else (k', v') :: assocSet rest k v

/-- One zone of the address book: `parent_token ↦ [(address, generated name)]`. -/
abbrev ZoneBook := List (String × List (IPAddr × String))

/-- `self.addressbook`: `zone ↦ ZoneBook`, insertion ordered. -/
abbrev AddressBook := List (String × ZoneBook)

/-- `PaloAltoFW._BuildAddressBook(zone, address)`.  The zone and token
containers are created first (also on the no-op path); an address whose
string form already occurs in the bucket is dropped; otherwise it is appended
under the name `parent_token + "_" + counter`. -/
def buildAddressBook (book : AddressBook) (zone : String) (addr : IPAddr) :
    AddressBook :=
  let zmap := (assocGet book zone).getD []
  let bucket := (assocGet zmap addr.parent_token).getD []
  if bucket.any (fun p => p.1.text == addr.text) then
    assocSet book zone (assocSet zmap addr.parent_token bucket)
  else
    let name := addr.parent_token ++ "_" ++ toString bucket.length
    assocSet book zone (assocSet zmap addr.parent_token (bucket ++ [(addr, name)]))

/-- Python `str.split("_")`, written structurally over the character list so
that it evaluates inside the kernel: splitting the empty string gives
`[""]`, separators at either end give empty chunks. -/
def splitOnChar (c : Char) : List Char → List (List Char)
  | [] => [[]]
  | x :: xs =>
      match splitOnChar c xs with
      | [] => [[]]
      | h :: t => if x = c then [] :: h :: t else (x :: h) :: t

/-- Python `"_".join`, on character lists. -/
def joinWithChar (c : Char) : List (List Char) → List Char
  | [] => []
  | [h] => h
  | h :: t => h ++ c :: joinWithChar c t

/-- Python `int` on a decimal digit string, `none` on anything else. -/
def charsToNat : List Char → Option Nat
  | [] => some 0
  | c :: rest =>
      if '0' ≤ c ∧ c ≤ '9' then
        (charsToNat rest).map fun r => (c.toNat - '0'.toNat) * 10 ^ rest.length + r
      else none

/-- `PaloAltoFW._SortAddressBookNumCheck`: split the entry name on `_`, take
the trailing chunk as the numeric suffix and rejoin the rest.  (The
`isinstance(..., int)` branch in the Python is dead: elements of a `split`
result are strings; and for generated names the suffix is always numeric, so
the defaulted conversion agrees with Python `int`.) -/
def sortAddressBookNumCheck (item : String) : String × Nat :=
  let item_list := splitOnChar '_' item.data
  let num := item_list.getLastD []
  let alpha := String.mk (joinWithChar '_' item_list.dropLast)
  if num ≠ [] then (alpha, ((charsToNat num).getD 0)) else (alpha, 0)

/-- Lexicographic comparison of character lists by code point. -/
def charListLt : List Char → List Char → Bool
  | [], [] => false
  | [], _ :: _ => true
  | _ :: _, [] => false
  | a :: as, b :: bs =>
      if a < b then true else if b < a then false else charListLt as bs

/-- Python `str <`: lexicographic on code points. -/
def strLtB (a b : String) : Bool := charListLt a.data b.data

/-- Ordering of address-book entry names: Python tuple comparison on the
`(alpha, num)` sort key. -/
def addrKeyLe (a b : String) : Prop :=
  (strLtB (sortAddressBookNumCheck a).1 (sortAddressBookNumCheck b).1 ||
    ((sortAddressBookNumCheck a).1 == (sortAddressBookNumCheck b).1 &&
      decide ((sortAddressBookNumCheck a).2 ≤ (sortAddressBookNumCheck b).2))) = true

instance : DecidableRel addrKeyLe := fun a b => by
  unfold addrKeyLe; infer_instance

/-- Plain string ordering used for `sorted(self.addressbook[zone])`. -/
def strLe (a b : String) : Prop := (strLtB a b || a == b) = true

instance : DecidableRel strLe := fun a b => by
  unfold strLe; infer_instance

/-- The first rendering loop of `PaloAltoFW.__str__` over one token bucket:
fill `address_book_names_dict`, skipping a re-used name when the address
already stored under it is a supernet of the new one, overwriting it
otherwise. -/
def namesDictBucket (d : List (String × IPAddr))
    (bucket : List (IPAddr × String)) : List (String × IPAddr) :=
  bucket.foldl
    (fun d p =>
      match assocGet d p.2 with
      | some existing =>
          if supernet_of existing p.1 then d else assocSet d p.2 p.1
      | none => assocSet d p.2 p.1)
    d

/-- `address_book_names_dict` as built by `PaloAltoFW.__str__`: zones in
insertion order, token groups of each zone in sorted order. -/
def addressBookNamesDict (book : AddressBook) : List (String × IPAddr) :=
  book.foldl
    (fun d z =>
      let groups := List.insertionSort strLe (z.2.map Prod.fst)
      groups.foldl (fun d g => namesDictBucket d ((assocGet z.2 g).getD [])) d)
    []

/-- The rendered `<address>` entries: one `(name, ip-netmask text)` pair per
key of `address_book_names_dict`, keys sorted with
`_SortAddressBookNumCheck`. -/
def addressEntries (book : AddressBook) : List (String × String) :=
  let d := addressBookNamesDict book
  (List.insertionSort addrKeyLe (d.map Prod.fst)).map
    (fun n => (n, ((assocGet d n).map IPAddr.text).getD ""))

/-- The logging loop of `Rule.ModifyOptions`: `disable` resets the collected
options to `["disable"]` and stops; `log-both` adds `log-start` and
`log-end`; `True`/`true`/`syslog`/`local` add `log-end`; anything else is
ignored. -/
def loggingOptionsAux : List String → List String → List String
  | [], acc => acc
  | item :: rest, acc =>
      if item = "disable" then ["disable"]
      else if item = "log-both" then
        loggingOptionsAux rest (acc ++ ["log-start", "log-end"])
      else if item = "True" ∨ item = "true" ∨ item = "syslog" ∨ item = "local" then
        loggingOptionsAux rest (acc ++ ["log-end"])
      else loggingOptionsAux rest acc

/-- `options["logging"]` as computed by `Rule.ModifyOptions` from the term's
logging directives. -/
def loggingOptions (logging : List String) : List String :=
  loggingOptionsAux logging []

/-- The `<log-start>`/`<log-end>` lines emitted for one rule by
`PaloAltoFW.__str__` (guarded by `if options["logging"]`, then three
membership tests). -/
def loggingLines (logging : List String) : List String :=
  if logging.isEmpty then []
  else
    (if "disable" ∈ logging then
      ["<log-start>no</log-start>", "<log-end>no</log-end>"] else []) ++
    (if "log-start" ∈ logging then ["<log-start>yes</log-start>"] else []) ++
    (if "log-end" ∈ logging then ["<log-end>yes</log-end>"] else [])

/-- `sorted(set(...))` over the parent tokens of an address list, as in the
SOURCE-ADDRESS / DESTINATION-ADDRESS sections of `Rule.ModifyOptions`; the
empty list yields `["any"]`. -/
def addrMembers (addrs : List IPAddr) : List String :=
  if addrs.isEmpty then ["any"]
  else List.insertionSort strLe ((addrs.map IPAddr.parent_token).dedup)

/-- The `<member>` values rendered for a rule's `<source>`/`<destination>`
section by `PaloAltoFW.__str__` (`any` if the option list is empty). -/
def renderMembers (opts : List String) : List String :=
  if opts.isEmpty then ["any"] else opts

/-- Key of `Service.service_map`: the formatted port tuple and the protocol
name. -/
abbrev ServiceKey := List String × String

/-- `Service.service_map`: `(ports, protocol) ↦ {"name": ...}`, insertion
ordered. -/
abbrev ServiceMap := List (ServiceKey × String)

/-- First-match lookup in the service map. -/
def smLookup (sm : ServiceMap) (k : ServiceKey) : Option String :=
  match sm with
  | [] => none
  | (k', v) :: rest => if k' = k then some v else smLookup rest k

/-- `Service.__init__(ports, service_name, protocol)`: duplicate key, then
duplicate generated name, then length cap, then registration. -/
def serviceNew (sm : ServiceMap) (ports : List String)
    (service_name protocol : String) : Except PErr ServiceMap :=
  if (smLookup sm (ports, protocol)).isSome then
    .error (.duplicateService
      ("You have a duplicate service. A service already exists on port(s): " ++
        String.intercalate "," ports))
  else
    let final_service_name := "service-" ++ service_name ++ "-" ++ protocol
    if sm.any (fun kv => kv.2 == final_service_name) then
      .error (.duplicateService
        ("You have a duplicate service. A service named " ++
          final_service_name ++ " already exists."))
    else if final_service_name.length > 63 then
      .error (.nameTooLong
        ("Service name must be 63 characters max: " ++ final_service_name))
    else .ok (sm ++ [((ports, protocol), final_service_name)])

/-- One iteration of the service section of `Rule.ModifyOptions`: reuse the
registered name when the `(ports, protocol)` key exists, otherwise create the
service and read its name back from the map. -/
def requestService (sm : ServiceMap) (ports : List String)
    (termName protocol : String) : Except PErr (ServiceMap × String) :=
  match smLookup sm (ports, protocol) with
  | some n => .ok (sm, n)
  | none =>
      match serviceNew sm ports termName protocol with
      | .error e => .error e
      | .ok sm' => .ok (sm', (smLookup sm' (ports, protocol)).getD "")

/-- The port strings built from `term.destination_port` in
`Rule.ModifyOptions` (a pair collapses to one number when both ends agree). -/
def buildPortStrings (destination_port : List (Nat × Nat)) : List String :=
  destination_port.map fun t =>
    if t.1 ≠ t.2 then toString t.1 ++ "-" ++ toString t.2 else toString t.1

/-- Number of `<entry>` elements the `<service>` section of
`PaloAltoFW.__str__` renders for a given key (the section emits exactly one
entry per `service_map` item). -/
def serviceEntryCount (sm : ServiceMap) (k : ServiceKey) : Nat :=
  (sm.filter (fun kv => kv.1 == k)).length

/-- A custom ICMP application entry as assembled in `_TranslatePolicy`
(`category`/`subcategory`/`technology` are fixed strings; the matcher keyword
and risk depend on the ICMP version; the numeric type code comes from the
external ICMP type table). -/
structure AppEntry where
  category : String
  subcategory : String
  technology : String
  description : String
  ident_keyword : String
  type_code : Nat
  risk : Nat
  deriving DecidableEq, Repr

/-- The mutable state touched by the ICMP handling block of
`_TranslatePolicy`: `self.applications`, `self.application_refs`, and the
current term's `pan_application` list. -/
structure IcmpState where
  applications : List String
  application_refs : List (String × AppEntry)
  pan_application : List String
  deriving DecidableEq, Repr

/-- The inner loop `for term_icmp_type_name in term.icmp_type` of
`_TranslatePolicy`: look the type up in the external table (fatal error on an
unknown name), skip entirely when the application name is already in
`application_refs`, otherwise build the entry, register it and attach its
name to the term. -/
def icmpTypesFold (versionTag keyword : String) (risk : Nat)
    (table : String → Option Nat) (termName : String) :
    List String → IcmpState → Except PErr IcmpState
  | [], st => .ok st
  | t :: rest, st =>
      let icmp_app_name := versionTag ++ t
      match table t with
      | none =>
          .error (.badIcmpType
            ("term with bad icmp type: " ++ termName ++ ", icmp_type: " ++ t))
      | some code =>
          if (assocGet st.application_refs icmp_app_name).isSome then
            icmpTypesFold versionTag keyword risk table termName rest st
          else
            let entry : AppEntry :=
              { category := "networking", subcategory := "ip-protocol",
                technology := "network-protocol",
                description := icmp_app_name,
                ident_keyword := keyword, type_code := code, risk := risk }
            let st' : IcmpState :=
              { applications := st.applications ++ [icmp_app_name],
                application_refs :=
                  st.application_refs ++ [(icmp_app_name, entry)],
                pan_application :=
                  if icmp_app_name ∈ st.pan_application then st.pan_application
                  else st.pan_application ++ [icmp_app_name] }
            icmpTypesFold versionTag keyword risk table termName rest st'

/-- One iteration of `for icmp_version in ["icmp", "icmpv6"]` in
`_TranslatePolicy` (`isV6 = false` for `"icmp"`): skip without the matching
dual flow, skip under the opposite single-family filter, attach the generic
application when the term names no ICMP types, otherwise run the type loop
with the fixed matcher keyword and risk. -/
def icmpVersionPass (isV6 : Bool) (filter_type : FilterType)
    (flows icmp_type : List String) (table : String → Option Nat)
    (termName : String) (st : IcmpState) : Except PErr IcmpState :=
  if isV6 = false then
    if "ip4-ip4" ∉ flows then .ok st
    else if filter_type = .inet6 then .ok st
    else if icmp_type.isEmpty then
      .ok { st with pan_application := st.pan_application ++ ["icmp"] }
    else icmpTypesFold "icmp-" "ident-by-icmp-type" 4 table termName icmp_type st
  else
    if "ip6-ip6" ∉ flows then .ok st
    else if filter_type = .inet then .ok st
    else if icmp_type.isEmpty then
      .ok { st with pan_application := st.pan_application ++ ["ipv6-icmp"] }
    else icmpTypesFold "icmp6-" "ident-by-icmp6-type" 2 table termName icmp_type st

/-- The whole ICMP handling block of `_TranslatePolicy`: the loop over
`["icmp", "icmpv6"]` with its `break` when the term's protocol set contains
neither ICMP protocol (the condition is re-checked at the second iteration,
as in the source, although the protocol set cannot change in between). -/
def handleIcmp (filter_type : FilterType) (protocol flows icmp_type : List String)
    (icmp4 icmp6 : String → Option Nat) (termName : String) (st : IcmpState) :
    Except PErr IcmpState :=
  if "icmp" ∉ protocol ∧ "icmpv6" ∉ protocol then .ok st
  else
    match icmpVersionPass false filter_type flows icmp_type icmp4 termName st with
    | .error e => .error e
    | .ok st1 =>
        if "icmp" ∉ protocol ∧ "icmpv6" ∉ protocol then .ok st1
        else icmpVersionPass true filter_type flows icmp_type icmp6 termName st1

/-- Number of addresses of IP version `v` in a list (the `afc` counters of
`_TranslatePolicy`). -/
def countVersion (v : Nat) (addrs : List IPAddr) : Nat :=
  (addrs.filter (fun a => a.version == v)).length

/-- The flow tags appended for one IP version `v` in `_TranslatePolicy`
(lines 463-479): the cascade of guards over the `afc` counters and the
`src_any`/`dst_any` flags. -/
def flowsForVersion (v : Nat) (src dst : List IPAddr) : List String :=
  let srcAny := src.isEmpty
  let dstAny := dst.isEmpty
  let vs := toString v
  if srcAny && dstAny then ["ip" ++ vs ++ "-ip" ++ vs]
  else if (countVersion v src == 0 && !srcAny) &&
      (countVersion v dst == 0 && !dstAny) then []
  else if (countVersion v src > 0 || srcAny) &&
      (countVersion v dst > 0 || dstAny) then ["ip" ++ vs ++ "-ip" ++ vs]
  else if (countVersion v src > 0 || srcAny) && countVersion v dst == 0 then
    ["ip" ++ vs ++ "-src-only", "ip" ++ vs ++ "-only"]
  else if countVersion v src == 0 && (countVersion v dst > 0 || dstAny) then
    ["ip" ++ vs ++ "-dst-only", "ip" ++ vs ++ "-only"]
  else []

/-- The `flows` list of `_TranslatePolicy`: the version loop `for v in [4, 6]`
over the flow cascade. -/
def computeFlows (src dst : List IPAddr) : List String :=
  flowsForVersion 4 src dst ++ flowsForVersion 6 src dst

/-- The `mixed` branch of the address-family gate (lines 510-535): `some
excl` keeps the term and strips the versions in `excl`, `none` drops it. -/
def mixedGate (flows : List String) : Option (List Nat) :=
  if "ip4-ip4" ∈ flows ∧ "ip6-ip6" ∉ flows then some [6]
  else if "ip6-ip6" ∈ flows ∧ "ip4-ip4" ∉ flows then some [4]
  else if "ip4-ip4" ∈ flows ∧ "ip6-ip6" ∈ flows then some []
  else if "ip4-only" ∈ flows ∧ "ip6-only" ∈ flows then none
  else if "ip4-ip4" ∈ flows then some [6] else some [4]

/-- The address-family gate of `_TranslatePolicy` (lines 481-535): per
filter type, either drop the term (`none`) or keep it with a list of IP
versions excluded from address registration. -/
def familyGate (ft : FilterType) (protocol flows : List String) :
    Option (List Nat) :=
  match ft with
  | .inet =>
      if "icmpv6" ∈ protocol then none
      else if "ip4-ip4" ∉ flows then none
      else some [6]
  | .inet6 =>
      if "icmp" ∈ protocol then none
      else if "ip6-ip6" ∉ flows then none
      else some [4]
  | .mixed => mixedGate flows

/-- `_TERM_MAX_LENGTH` of the Palo Alto generator. -/
def TERM_MAX_LENGTH : Nat := 31

/-- Modelled from the spec: `aclgenerator.ACLGenerator.FixTermLength` is not
under `src/`; the spec describes term names as length-capped at the platform
maximum (31 for this generator, `_TERM_MAX_LENGTH`), i.e. truncated to their
first 31 characters (written over the character list so that it evaluates
symbolically and inside the kernel). -/
def FixTermLength (name : String) : String :=
  String.mk (name.data.take TERM_MAX_LENGTH)

/-- `term.name = self.FixTermLength(term.name)` (line 410). -/
def fixName (t : PolTerm) : PolTerm := { t with name := FixTermLength t.name }

/-- The expiration drop condition of lines 416-427 (`term.expiration` and
`term.expiration <= current_date`; the look-ahead warning has no effect on
the output). -/
def isExpired (t : PolTerm) (current_date : Nat) : Bool :=
  match t.expiration with
  | some d => decide (d ≤ current_date)
  | none => false

/-- `_SUPPORTED_PROTO_NAMES` of the Palo Alto generator. -/
def SUPPORTED_PROTO_NAMES : List String :=
  ["tcp", "udp", "icmp", "icmpv6", "sctp", "igmp"]

/-- The exclusion subtraction of `_TranslatePolicy` (lines 429-434).  The
subtraction primitive `nacaddr.RemoveAddressFromList` is an external
collaborator and is taken as a parameter. -/
def applyExclusions (removeAddr : List IPAddr → IPAddr → List IPAddr)
    (t : PolTerm) : PolTerm :=
  { t with
    source_address := t.source_address_exclude.foldl removeAddr t.source_address,
    destination_address :=
      t.destination_address_exclude.foldl removeAddr t.destination_address }

/-- The persistent generator state written by the per-term loop:
`self.addressbook`, `self.applications`, `self.application_refs`. -/
structure BookState where
  addressbook : AddressBook
  applications : List String
  application_refs : List (String × AppEntry)
  deriving DecidableEq, Repr

/-- The address-book registration loops of `_TranslatePolicy` (lines
537-545): register each source address under the from-zone and each
destination address under the to-zone, skipping excluded IP versions. -/
def registerAddresses (from_zone to_zone : String) (excl : List Nat)
    (t : PolTerm) (book : AddressBook) : AddressBook :=
  let book1 := t.source_address.foldl
    (fun b a => if a.version ∈ excl then b else buildAddressBook b from_zone a)
    book
  t.destination_address.foldl
    (fun b a => if a.version ∈ excl then b else buildAddressBook b to_zone a)
    book1

/-- Result of the per-term loop body: `skipped` is a `continue` (the possibly
already-mutated term produces no rule), `kept` reaches the `new_terms`
list. -/
inductive Outcome where
  | skipped (t : PolTerm)
  | kept (t : PolTerm)
  deriving DecidableEq, Repr

/-- The second half of the loop body of `for term in terms` in
`_TranslatePolicy` (lines 436-627), entered after the skip, duplicate-name,
expiration and exclusion stages with the already-updated term `t`: compute
flows and apply the address-family gate, register addresses, run the ICMP
block and reject unsupported protocols. -/
def translateTermRest (icmp4 icmp6 : String → Option Nat) (ft : FilterType)
    (from_zone to_zone : String) (dup : List String) (st : BookState)
    (t : PolTerm) : Except PErr (List String × BookState × Outcome) :=
  match familyGate ft t.protocol
      (computeFlows t.source_address t.destination_address) with
  | none => .ok (dup, st, .skipped t)
  | some excl =>
      if ¬t.icmp_type.isEmpty ∧ "icmp" ∉ t.protocol ∧
          "icmpv6" ∉ t.protocol then
        .error (.unsupportedFilter
          ("Palo Alto Firewall filter must have ICMP or ICMPv6 " ++
            "protocol specified when using icmp_type keyword"))
      else
        match handleIcmp ft t.protocol
            (computeFlows t.source_address t.destination_address)
            t.icmp_type icmp4 icmp6 t.name
            ⟨st.applications, st.application_refs, t.pan_application⟩ with
        | .error e => .error e
        | .ok ist =>
            match t.protocol.find? (fun p => p ∉ SUPPORTED_PROTO_NAMES) with
            | some p =>
                .error (.unsupportedProtocol
                  ("protocol " ++ p ++ " is not supported"))
            | none =>
                .ok (dup,
                  ⟨registerAddresses from_zone to_zone excl t st.addressbook,
                    ist.applications, ist.application_refs⟩,
                  .kept { t with pan_application := ist.pan_application })

/-- The body of `for term in terms` in `_TranslatePolicy` (lines 391-627):
skip stateless-reply and established terms, fix the term name and check it
against `term_dup_check`, drop expired terms, subtract exclusions, then run
the remaining stages (`translateTermRest`). -/
def translateTerm (removeAddr : List IPAddr → IPAddr → List IPAddr)
    (icmp4 icmp6 : String → Option Nat) (ft : FilterType)
    (from_zone to_zone : String) (current_date : Nat)
    (dup : List String) (st : BookState) (term : PolTerm) :
    Except PErr (List String × BookState × Outcome) :=
  if term.stateless_reply then .ok (dup, st, .skipped term)
  else if "established" ∈ term.option then .ok (dup, st, .skipped term)
  else if "tcp-established" ∈ term.option then .ok (dup, st, .skipped term)
  else if (fixName term).name ∈ dup then
    .error (.duplicateTerm
      ("You have a duplicate term: " ++ (fixName term).name))
  else if isExpired (fixName term) current_date then
    .ok (dup ++ [(fixName term).name], st, .skipped (fixName term))
  else translateTermRest icmp4 icmp6 ft from_zone to_zone
    (dup ++ [(fixName term).name]) st
    (applyExclusions removeAddr (fixName term))

/-- The full term loop of one header: thread `term_dup_check` and the
generator state, collect the kept (translated) terms in order. -/
def translateTerms (removeAddr : List IPAddr → IPAddr → List IPAddr)
    (icmp4 icmp6 : String → Option Nat) (ft : FilterType)
    (from_zone to_zone : String) (current_date : Nat)
    (dup : List String) (st : BookState) :
    List PolTerm → Except PErr (List String × BookState × List PolTerm)
  | [] => .ok (dup, st, [])
  | term :: rest =>
      match translateTerm removeAddr icmp4 icmp6 ft from_zone to_zone
          current_date dup st term with
      | .error e => .error e
      | .ok (dup', st', out) =>
          match translateTerms removeAddr icmp4 icmp6 ft from_zone to_zone
              current_date dup' st' rest with
          | .error e => .error e
          | .ok (dup'', st'', kept) =>
              .ok (dup'', st'',
                (match out with | .kept t => [t] | .skipped _ => []) ++ kept)

/-- The option map of one Palo Alto rule as filled in by `Rule.__init__` /
`Rule.ModifyOptions` (`action` is `none` when the term carries no action,
matching the absent dictionary key). -/
structure RuleOptions where
  from_zone : List String
  to_zone : List String
  description : List String
  source : List String
  destination : List String
  application : List String
  service : List String
  logging : List String
  action : Option String
  option : List String
  deriving DecidableEq, Repr

/-- The service section of `Rule.ModifyOptions`: for each protocol of the
term, reuse or create the service for `(ports, protocol)` and collect the
service names in order. -/
def addServices (sm : ServiceMap) (ports : List String) (termName : String) :
    List String → List String → Except PErr (ServiceMap × List String)
  | [], acc => .ok (sm, acc)
  | p :: rest, acc =>
      match requestService sm ports termName p with
      | .error e => .error e
      | .ok (sm', n) => addServices sm' ports termName rest (acc ++ [n])

/-- The protocol-to-application loop at the end of `Rule.ModifyOptions`:
ICMP protocols contribute nothing, `igmp`/`sctp` map to themselves, and
`tcp`/`udp` map to the `any` application, all deduplicated against the
already-collected application list. -/
def addProtocolApplications (protocols apps : List String) : List String :=
  protocols.foldl
    (fun apps p =>
      if p = "icmp" ∨ p = "icmpv6" then apps
      else if p = "igmp" ∨ p = "sctp" then
        (if p ∈ apps then apps else apps ++ [p])
      else if p = "tcp" ∨ p = "udp" then
        (if "any" ∈ apps then apps else apps ++ ["any"])
      else apps)
    apps

/-- `Rule.ModifyOptions(terms)`: assemble the rule option map from the
translated term, creating services on the way. -/
def modifyOptions (from_zone to_zone : String) (sm : ServiceMap)
    (t : PolTerm) : Except PErr (ServiceMap × RuleOptions) :=
  let servicesResult :=
    if t.destination_port.isEmpty then .ok (sm, [])
    else addServices sm (buildPortStrings t.destination_port) t.name
      t.protocol []
  match servicesResult with
  | .error e => .error e
  | .ok (sm', service) =>
      .ok (sm',
        { from_zone := [from_zone], to_zone := [to_zone],
          description := t.comment,
          source := addrMembers t.source_address,
          destination := addrMembers t.destination_address,
          application := addProtocolApplications t.protocol t.pan_application,
          service := service,
          logging := loggingOptions t.logging,
          action := t.action.head?,
          option := t.option })

/-- `Rule.__init__`: reject empty zones, then massage the term into the rule
option map. -/
def ruleNew (from_zone to_zone : String) (sm : ServiceMap) (t : PolTerm) :
    Except PErr (ServiceMap × RuleOptions) :=
  if from_zone = "" ∨ to_zone = "" then
    .error (.optionError "Source or destination zone is empty.")
  else modifyOptions from_zone to_zone sm t

/-- The ruleset loop at the end of the header iteration in
`_TranslatePolicy`: one `Rule` per kept term, keyed by term name
(dictionary update semantics). -/
def buildRuleset (from_zone to_zone : String) (sm : ServiceMap)
    (ruleset : List (String × RuleOptions)) :
    List PolTerm → Except PErr (ServiceMap × List (String × RuleOptions))
  | [] => .ok (sm, ruleset)
  | t :: rest =>
      match ruleNew from_zone to_zone sm t with
      | .error e => .error e
      | .ok (sm', options) =>
          buildRuleset from_zone to_zone sm' (assocSet ruleset t.name options)
            rest

/-- One parsed header: the `from-zone`/`to-zone` filter options and the
validated address-family mode. -/
structure HeaderSpec where
  from_zone : String
  to_zone : String
  ft : FilterType
  deriving DecidableEq, Repr

/-- The whole-run state of the generator: address book, application catalog,
the process-wide service registry and the accumulated `pafw_policies`. -/
structure PolicyState where
  book : BookState
  serviceMap : ServiceMap
  policies : List (String × String × List (String × RuleOptions))
  deriving DecidableEq, Repr

/-- One header iteration of `_TranslatePolicy`: a fresh `term_dup_check`,
the term loop, then the ruleset built from the kept terms. -/
def translateHeader (removeAddr : List IPAddr → IPAddr → List IPAddr)
    (icmp4 icmp6 : String → Option Nat) (current_date : Nat)
    (ps : PolicyState) (h : HeaderSpec) (terms : List PolTerm) :
    Except PErr PolicyState :=
  match translateTerms removeAddr icmp4 icmp6 h.ft h.from_zone h.to_zone
      current_date [] ps.book terms with
  | .error e => .error e
  | .ok (_, book', kept) =>
      match buildRuleset h.from_zone h.to_zone ps.serviceMap [] kept with
      | .error e => .error e
      | .ok (sm', ruleset) =>
          .ok ⟨book', sm',
            ps.policies ++ [(h.from_zone, h.to_zone, ruleset)]⟩

/-- `_TranslatePolicy` over all filters of the policy (headers already
validated and parsed into `HeaderSpec`). -/
def translatePolicy (removeAddr : List IPAddr → IPAddr → List IPAddr)
    (icmp4 icmp6 : String → Option Nat) (current_date : Nat)
    (ps : PolicyState) :
    List (HeaderSpec × List PolTerm) → Except PErr PolicyState
  | [] => .ok ps
  | (h, terms) :: rest =>
      match translateHeader removeAddr icmp4 icmp6 current_date ps h terms with
      | .error e => .error e
      | .ok ps' => translatePolicy removeAddr icmp4 icmp6 current_date ps' rest

/-- The empty generator state at the start of a run. -/
def initialState : PolicyState := ⟨⟨[], [], []⟩, [], []⟩

/-! ### Helper lemmas about the logging option loop -/

theorem loggingOptionsAux_disable : ∀ (l acc : List String), "disable" ∈ l →
    loggingOptionsAux l acc = ["disable"]
  | [], _, h => absurd h (List.not_mem_nil _)
  | a :: rest, acc, h => by
      by_cases ha : a = "disable"
      · simp only [loggingOptionsAux, if_pos ha]
      · have h' : "disable" ∈ rest := by
          rcases List.mem_cons.mp h with h | h
          · exact absurd h.symm ha
          · exact h
        simp only [loggingOptionsAux, if_neg ha]
        split_ifs <;> exact loggingOptionsAux_disable rest _ h'

theorem loggingOptionsAux_mem_of_acc : ∀ (l acc : List String) (x : String),
    "disable" ∉ l → x ∈ acc → x ∈ loggingOptionsAux l acc
  | [], _, _, _, hx => hx
  | a :: rest, acc, x, hd, hx => by
      have ha : a ≠ "disable" := fun e => hd (e ▸ List.mem_cons_self a rest)
      have hd' : "disable" ∉ rest := fun m => hd (List.mem_cons_of_mem _ m)
      simp only [loggingOptionsAux, if_neg ha]
      split_ifs
      · exact loggingOptionsAux_mem_of_acc rest _ x hd' (List.mem_append_left _ hx)
      · exact loggingOptionsAux_mem_of_acc rest _ x hd' (List.mem_append_left _ hx)
      · exact loggingOptionsAux_mem_of_acc rest _ x hd' hx

theorem loggingOptionsAux_mem : ∀ (l acc : List String) (x : String),
    "disable" ∉ l → x ∈ loggingOptionsAux l acc →
    x ∈ acc ∨ x = "log-start" ∨ x = "log-end"
  | [], _, _, _, hx => .inl hx
  | a :: rest, acc, x, hd, hx => by
      have ha : a ≠ "disable" := fun e => hd (e ▸ List.mem_cons_self a rest)
      have hd' : "disable" ∉ rest := fun m => hd (List.mem_cons_of_mem _ m)
      simp only [loggingOptionsAux, if_neg ha] at hx
      split_ifs at hx
      · rcases loggingOptionsAux_mem rest _ x hd' hx with h | h
        · rcases List.mem_append.mp h with h | h
          · exact .inl h
          · simp only [List.mem_cons, List.mem_singleton] at h
            rcases h with h | h | h
            · exact .inr (.inl h)
            · exact .inr (.inr h)
            · exact absurd h (List.not_mem_nil x)
        · exact .inr h
      · rcases loggingOptionsAux_mem rest _ x hd' hx with h | h
        · rcases List.mem_append.mp h with h | h
          · exact .inl h
          · simp only [List.mem_singleton] at h
            exact .inr (.inr h)
        · exact .inr h
      · rcases loggingOptionsAux_mem rest _ x hd' hx with h | h
        · exact .inl h
        · exact .inr h

theorem loggingOptionsAux_only_logend : ∀ (l acc : List String) (x : String),
    "disable" ∉ l → "log-both" ∉ l → x ∈ loggingOptionsAux l acc →
    x ∈ acc ∨ x = "log-end"
  | [], _, _, _, _, hx => .inl hx
  | a :: rest, acc, x, hd, hb, hx => by
      have ha : a ≠ "disable" := fun e => hd (e ▸ List.mem_cons_self a rest)
      have hab : a ≠ "log-both" := fun e => hb (e ▸ List.mem_cons_self a rest)
      have hd' : "disable" ∉ rest := fun m => hd (List.mem_cons_of_mem _ m)
      have hb' : "log-both" ∉ rest := fun m => hb (List.mem_cons_of_mem _ m)
      simp only [loggingOptionsAux, if_neg ha, if_neg hab] at hx
      split_ifs at hx
      · rcases loggingOptionsAux_only_logend rest _ x hd' hb' hx with h | h
        · rcases List.mem_append.mp h with h | h
          · exact .inl h
          · simp only [List.mem_singleton] at h
            exact .inr h
        · exact .inr h
      · rcases loggingOptionsAux_only_logend rest _ x hd' hb' hx with h | h
        · exact .inl h
        · exact .inr h

theorem loggingOptionsAux_logboth : ∀ (l acc : List String),
    "disable" ∉ l → "log-both" ∈ l →
    "log-start" ∈ loggingOptionsAux l acc ∧ "log-end" ∈ loggingOptionsAux l acc
  | [], _, _, hb => absurd hb (List.not_mem_nil _)
  | a :: rest, acc, hd, hb => by
      have ha : a ≠ "disable" := fun e => hd (e ▸ List.mem_cons_self a rest)
      have hd' : "disable" ∉ rest := fun m => hd (List.mem_cons_of_mem _ m)
      simp only [loggingOptionsAux, if_neg ha]
      by_cases h1 : a = "log-both"
      · rw [if_pos h1]
        exact ⟨loggingOptionsAux_mem_of_acc rest _ _ hd' (by simp),
          loggingOptionsAux_mem_of_acc rest _ _ hd' (by simp)⟩
      · have hb' : "log-both" ∈ rest := by
          rcases List.mem_cons.mp hb with h | h
          · exact absurd h.symm h1
          · exact h
        rw [if_neg h1]
        split_ifs
        · exact loggingOptionsAux_logboth rest _ hd' hb'
        · exact loggingOptionsAux_logboth rest _ hd' hb'

theorem loggingOptionsAux_logend : ∀ (l acc : List String) (x : String),
    "disable" ∉ l → x ∈ l → (x = "true" ∨ x = "syslog" ∨ x = "local") →
    "log-end" ∈ loggingOptionsAux l acc
  | [], _, _, _, hx, _ => absurd hx (List.not_mem_nil _)
  | a :: rest, acc, x, hd, hx, hcase => by
      have ha : a ≠ "disable" := fun e => hd (e ▸ List.mem_cons_self a rest)
      have hd' : "disable" ∉ rest := fun m => hd (List.mem_cons_of_mem _ m)
      simp only [loggingOptionsAux, if_neg ha]
      rcases List.mem_cons.mp hx with h | hx'
      · subst h
        rcases hcase with rfl | rfl | rfl <;>
          rw [if_neg (by decide), if_pos (by decide)] <;>
          exact loggingOptionsAux_mem_of_acc rest _ _ hd' (by simp)
      · split_ifs
        · exact loggingOptionsAux_logend rest _ x hd' hx' hcase
        · exact loggingOptionsAux_mem_of_acc rest _ _ hd' (by simp)
        · exact loggingOptionsAux_logend rest _ x hd' hx' hcase

/-- C8: for every emitted rule, logging directives containing `disable`
render `<log-start>no</log-start>` and `<log-end>no</log-end>` regardless of
other directives; `log-both` without `disable` renders both `yes`; any of
`true`, `syslog` or `local` without `disable` and `log-both` renders only
`<log-end>yes</log-end>`. -/
theorem claim_C8_logging (lg : List String) :
    ("disable" ∈ lg →
      loggingLines (loggingOptions lg) =
        ["<log-start>no</log-start>", "<log-end>no</log-end>"]) ∧
    ("disable" ∉ lg → "log-both" ∈ lg →
      loggingLines (loggingOptions lg) =
        ["<log-start>yes</log-start>", "<log-end>yes</log-end>"]) ∧
    ("disable" ∉ lg → "log-both" ∉ lg →
      ("true" ∈ lg ∨ "syslog" ∈ lg ∨ "local" ∈ lg) →
      loggingLines (loggingOptions lg) = ["<log-end>yes</log-end>"]) := by
  refine ⟨fun h => ?_, fun hd hb => ?_, fun hd hb hc => ?_⟩
  · unfold loggingOptions
    rw [loggingOptionsAux_disable _ _ h]
    decide
  · have hls : "log-start" ∈ loggingOptions lg :=
      (loggingOptionsAux_logboth lg [] hd hb).1
    have hle : "log-end" ∈ loggingOptions lg :=
      (loggingOptionsAux_logboth lg [] hd hb).2
    have hdis : "disable" ∉ loggingOptions lg := by
      intro hmem
      rcases loggingOptionsAux_mem lg [] _ hd hmem with h | h | h
      · exact absurd h (List.not_mem_nil _)
      · exact absurd h (by decide)
      · exact absurd h (by decide)
    have hne : (loggingOptions lg).isEmpty = false := by
      cases h' : loggingOptions lg with
      | nil => rw [h'] at hls; exact absurd hls (List.not_mem_nil _)
      | cons a l => rfl
    unfold loggingLines
    rw [hne]
    simp [hdis, hls, hle]
  · have hle : "log-end" ∈ loggingOptions lg := by
      rcases hc with hc | hc | hc
      · exact loggingOptionsAux_logend lg [] _ hd hc (.inl rfl)
      · exact loggingOptionsAux_logend lg [] _ hd hc (.inr (.inl rfl))
      · exact loggingOptionsAux_logend lg [] _ hd hc (.inr (.inr rfl))
    have hdis : "disable" ∉ loggingOptions lg := by
      intro hmem
      rcases loggingOptionsAux_only_logend lg [] _ hd hb hmem with h | h
      · exact absurd h (List.not_mem_nil _)
      · exact absurd h (by decide)
    have hls : "log-start" ∉ loggingOptions lg := by
      intro hmem
      rcases loggingOptionsAux_only_logend lg [] _ hd hb hmem with h | h
      · exact absurd h (List.not_mem_nil _)
      · exact absurd h (by decide)
    have hne : (loggingOptions lg).isEmpty = false := by
      cases h' : loggingOptions lg with
      | nil => rw [h'] at hle; exact absurd hle (List.not_mem_nil _)
      | cons a l => rfl
    unfold loggingLines
    rw [hne]
    simp [hdis, hls, hle]

/-- Witness for C8 at the three concrete directive lists used by the unit
tests (`disable`, `log-both`, `syslog`). -/
theorem claim_C8_logging_witness :
    loggingLines (loggingOptions ["disable"]) =
      ["<log-start>no</log-start>", "<log-end>no</log-end>"] ∧
    loggingLines (loggingOptions ["log-both"]) =
      ["<log-start>yes</log-start>", "<log-end>yes</log-end>"] ∧
    loggingLines (loggingOptions ["syslog"]) = ["<log-end>yes</log-end>"] :=
  ⟨(claim_C8_logging ["disable"]).1 (by decide),
   (claim_C8_logging ["log-both"]).2.1 (by decide) (by decide),
   (claim_C8_logging ["syslog"]).2.2 (by decide) (by decide)
     (.inr (.inl (by decide)))⟩

/-- C9: a surviving term with an empty source (resp. destination) address
list renders `<source>` (resp. `<destination>`) members equal to exactly
`["any"]`. -/
theorem claim_C9_empty_members (t : PolTerm) :
    (t.source_address = [] →
      renderMembers (addrMembers t.source_address) = ["any"]) ∧
    (t.destination_address = [] →
      renderMembers (addrMembers t.destination_address) = ["any"]) := by
  constructor <;> intro h <;> rw [h] <;> decide

/-- Witness for C9 at a concrete term with no addresses. -/
theorem claim_C9_empty_members_witness :
    renderMembers (addrMembers (PolTerm.source_address
      ⟨"t", [], [], [], [], [], ["tcp"], [], [], [], ["accept"], [], [],
        none, false⟩)) = ["any"] :=
  (claim_C9_empty_members
    ⟨"t", [], [], [], [], [], ["tcp"], [], [], [], ["accept"], [], [],
      none, false⟩).1 rfl

/-! ### Helper lemmas about the service registry -/

theorem smLookup_eq_none : ∀ (sm : ServiceMap) (k : ServiceKey),
    smLookup sm k = none ↔ ∀ kv ∈ sm, kv.1 ≠ k
  | [], k => by simp [smLookup]
  | (k', v) :: rest, k => by
      by_cases h : k' = k
      · subst h
        simp [smLookup]
      · simp only [smLookup, if_neg h, List.mem_cons]
        rw [smLookup_eq_none rest k]
        constructor
        · rintro hr kv (rfl | hm)
          · exact h
          · exact hr kv hm
        · intro hall kv hm
          exact hall kv (.inr hm)

theorem smLookup_none_count (sm : ServiceMap) (k : ServiceKey)
    (h : smLookup sm k = none) : serviceEntryCount sm k = 0 := by
  unfold serviceEntryCount
  rw [List.length_eq_zero]
  rw [List.filter_eq_nil_iff]
  intro kv hm
  simp only [beq_iff_eq]
  exact (smLookup_eq_none sm k).mp h kv hm

theorem smLookup_some_count_pos : ∀ (sm : ServiceMap) (k : ServiceKey)
    (n : String), smLookup sm k = some n → 1 ≤ serviceEntryCount sm k
  | [], _, _, h => by simp [smLookup] at h
  | (k', v) :: rest, k, n, h => by
      unfold serviceEntryCount
      by_cases hk : k' = k
      · subst hk
        simp [List.filter_cons]
      · rw [smLookup, if_neg hk] at h
        have := smLookup_some_count_pos rest k n h
        simp only [List.filter_cons, beq_iff_eq, hk]
        simpa [serviceEntryCount] using this

theorem smLookup_append_right (sm sm' : ServiceMap) (k : ServiceKey)
    (h : smLookup sm k = none) :
    smLookup (sm ++ sm') k = smLookup sm' k := by
  induction sm with
  | nil => rfl
  | cons kv rest ih =>
      rw [smLookup] at h
      by_cases hk : kv.1 = k
      · rw [if_pos hk] at h
        exact absurd h (by simp)
      · rw [if_neg hk] at h
        rw [List.cons_append, smLookup, if_neg hk]
        exact ih h

/-- C5: registering a service under a fresh `(ports, protocol)` key
synthesizes the name `service-<term>-<protocol>`; if another entry already
carries that exact name the registration fails with a duplicate-service
error, if the name is longer than 63 characters it fails with a
name-too-long error, and otherwise the entry is appended under that name. -/
theorem claim_C5_service_registration (sm : ServiceMap) (ports : List String)
    (tn p : String) (hkey : smLookup sm (ports, p) = none) :
    ((∃ kv ∈ sm, kv.2 = "service-" ++ tn ++ "-" ++ p) →
      serviceNew sm ports tn p = .error (.duplicateService
        ("You have a duplicate service. A service named " ++
          ("service-" ++ tn ++ "-" ++ p) ++ " already exists."))) ∧
    ((∀ kv ∈ sm, kv.2 ≠ "service-" ++ tn ++ "-" ++ p) →
      ("service-" ++ tn ++ "-" ++ p).length > 63 →
      serviceNew sm ports tn p = .error (.nameTooLong
        ("Service name must be 63 characters max: " ++
          ("service-" ++ tn ++ "-" ++ p)))) ∧
    ((∀ kv ∈ sm, kv.2 ≠ "service-" ++ tn ++ "-" ++ p) →
      ("service-" ++ tn ++ "-" ++ p).length ≤ 63 →
      serviceNew sm ports tn p =
        .ok (sm ++ [((ports, p), "service-" ++ tn ++ "-" ++ p)])) := by
  have hguard : ¬((smLookup sm (ports, p)).isSome = true) := by
    rw [hkey]; simp
  refine ⟨fun hdup => ?_, fun hno hlen => ?_, fun hno hlen => ?_⟩
  · unfold serviceNew
    rw [if_neg hguard, if_pos ?_]
    rcases hdup with ⟨kv, hm, he⟩
    exact List.any_eq_true.mpr ⟨kv, hm, beq_iff_eq.mpr he⟩
  · unfold serviceNew
    rw [if_neg hguard, if_neg ?_, if_pos hlen]
    intro hany
    rcases List.any_eq_true.mp hany with ⟨kv, hm, he⟩
    exact hno kv hm (beq_iff_eq.mp he)
  · unfold serviceNew
    rw [if_neg hguard, if_neg ?_, if_neg (by omega)]
    intro hany
    rcases List.any_eq_true.mp hany with ⟨kv, hm, he⟩
    exact hno kv hm (beq_iff_eq.mp he)

/-- Witness for C5: a fresh registration on an empty registry succeeds with
the synthesized name. -/
theorem claim_C5_service_registration_witness :
    serviceNew [] ["25"] "good-term-1" "tcp" =
      .ok [((["25"], "tcp"), "service-good-term-1-tcp")] :=
  (claim_C5_service_registration [] ["25"] "good-term-1" "tcp" rfl).2.2
    (by simp) (by decide)

/-- C4: once a `(ports, protocol)` pair is registered (here: the state after
any successful first request, with the key occurring at most once
beforehand, as is invariant for maps built by `serviceNew`), every later
request returns the same generated name, leaves the registry unchanged, and
the rendered `<service>` section carries exactly one entry for that pair. -/
theorem claim_C4_service_dedup (sm : ServiceMap) (ports : List String)
    (tn1 tn2 p : String) (sm1 : ServiceMap) (n1 : String)
    (hcount : serviceEntryCount sm (ports, p) ≤ 1)
    (h1 : requestService sm ports tn1 p = .ok (sm1, n1)) :
    requestService sm1 ports tn2 p = .ok (sm1, n1) ∧
    serviceEntryCount sm1 (ports, p) = 1 := by
  unfold requestService at h1
  cases hk : smLookup sm (ports, p) with
  | some n =>
      rw [hk] at h1
      injection h1 with h1'
      have h2 : sm = sm1 := congrArg Prod.fst h1'
      have h3 : n = n1 := congrArg Prod.snd h1'
      rw [← h2, ← h3]
      constructor
      · unfold requestService
        rw [hk]
      · exact le_antisymm hcount (smLookup_some_count_pos sm (ports, p) n hk)
  | none =>
      rw [hk] at h1
      unfold serviceNew at h1
      rw [if_neg (by rw [hk]; simp)] at h1
      by_cases hany : sm.any
          (fun kv => kv.2 == "service-" ++ tn1 ++ "-" ++ p) = true
      · rw [if_pos hany] at h1
        exact absurd h1 (by simp)
      · rw [if_neg hany] at h1
        by_cases hlen : ("service-" ++ tn1 ++ "-" ++ p).length > 63
        · rw [if_pos hlen] at h1
          exact absurd h1 (by simp)
        · rw [if_neg hlen] at h1
          injection h1 with h1'
          have h2 : sm ++ [((ports, p), "service-" ++ tn1 ++ "-" ++ p)]
              = sm1 := congrArg Prod.fst h1'
          have hlookA : smLookup
              (sm ++ [((ports, p), "service-" ++ tn1 ++ "-" ++ p)])
              (ports, p) = some ("service-" ++ tn1 ++ "-" ++ p) := by
            rw [smLookup_append_right sm _ _ hk]
            simp [smLookup]
          have h3 : n1 = "service-" ++ tn1 ++ "-" ++ p := by
            have h4 : (smLookup
                (sm ++ [((ports, p), "service-" ++ tn1 ++ "-" ++ p)])
                (ports, p)).getD "" = n1 := congrArg Prod.snd h1'
            rw [hlookA] at h4
            exact h4.symm
          rw [← h2, h3]
          constructor
          · unfold requestService
            rw [hlookA]
          · unfold serviceEntryCount
            rw [List.filter_append]
            have h0 := smLookup_none_count sm (ports, p) hk
            unfold serviceEntryCount at h0
            rw [List.length_append, h0]
            simp

/-- Witness for C4: the second request for `(["25"], tcp)` returns the name
created by the first and the registry keeps a single entry for the pair. -/
theorem claim_C4_service_dedup_witness :
    requestService [((["25"], "tcp"), "service-good-term-1-tcp")] ["25"]
      "other-term" "tcp" =
      .ok ([((["25"], "tcp"), "service-good-term-1-tcp")],
        "service-good-term-1-tcp") ∧
    serviceEntryCount [((["25"], "tcp"), "service-good-term-1-tcp")]
      (["25"], "tcp") = 1 :=
  claim_C4_service_dedup [] ["25"] "good-term-1" "other-term" "tcp"
    [((["25"], "tcp"), "service-good-term-1-tcp")] "service-good-term-1-tcp"
    (by decide) rfl

/-- C2 counterexample: with the type table mapping `echo-request` to 8, a
first term builds `icmp-echo-request` and attaches it, but a second term
(fresh `pan_application`, catalog carried over) finds the entry in
`application_refs` and the whole step is skipped: its application list stays
empty, contradicting the claim that the name is attached also when the entry
is reused from a previous term. -/
theorem claim_C2_counterexample :
    handleIcmp .inet ["icmp"] ["ip4-ip4"] ["echo-request"]
      (fun t => if t = "echo-request" then some 8 else none)
      (fun t => if t = "echo-request" then some 8 else none) "term-1"
      ⟨[], [], []⟩ =
      .ok ⟨["icmp-echo-request"],
        [("icmp-echo-request",
          ⟨"networking", "ip-protocol", "network-protocol",
            "icmp-echo-request", "ident-by-icmp-type", 8, 4⟩)],
        ["icmp-echo-request"]⟩ ∧
    handleIcmp .inet ["icmp"] ["ip4-ip4"] ["echo-request"]
      (fun t => if t = "echo-request" then some 8 else none)
      (fun t => if t = "echo-request" then some 8 else none) "term-2"
      ⟨["icmp-echo-request"],
        [("icmp-echo-request",
          ⟨"networking", "ip-protocol", "network-protocol",
            "icmp-echo-request", "ident-by-icmp-type", 8, 4⟩)],
        []⟩ =
      .ok ⟨["icmp-echo-request"],
        [("icmp-echo-request",
          ⟨"networking", "ip-protocol", "network-protocol",
            "icmp-echo-request", "ident-by-icmp-type", 8, 4⟩)],
        []⟩ :=
  ⟨rfl, rfl⟩

/-- C2 amended: for a term naming one explicit ICMP type with a known code,
the translation ensures the `icmp-<type>` (resp. `icmp6-<type>`) entry with
matcher `ident-by-icmp-type` and risk 4 (resp. `ident-by-icmp6-type` and
risk 2) exists, but attaches its name to the term's application list only
when the entry is newly built (and not yet attached to that term); when the
entry already exists in the catalog the step is a no-op for that term. -/
theorem claim_C2_amended (ft : FilterType) (protocol flows : List String)
    (t tn : String) (code : Nat) (icmp4 icmp6 : String → Option Nat)
    (st : IcmpState) :
    ("icmp" ∈ protocol → ft ≠ .inet6 → "ip4-ip4" ∈ flows →
      "ip6-ip6" ∉ flows → icmp4 t = some code →
      (assocGet st.application_refs ("icmp-" ++ t) = none →
        handleIcmp ft protocol flows [t] icmp4 icmp6 tn st =
          .ok ⟨st.applications ++ ["icmp-" ++ t],
            st.application_refs ++ [("icmp-" ++ t,
              ⟨"networking", "ip-protocol", "network-protocol",
                "icmp-" ++ t, "ident-by-icmp-type", code, 4⟩)],
            if ("icmp-" ++ t) ∈ st.pan_application then st.pan_application
            else st.pan_application ++ ["icmp-" ++ t]⟩) ∧
      ((assocGet st.application_refs ("icmp-" ++ t)).isSome →
        handleIcmp ft protocol flows [t] icmp4 icmp6 tn st = .ok st)) ∧
    ("icmpv6" ∈ protocol → ft ≠ .inet → "ip6-ip6" ∈ flows →
      "ip4-ip4" ∉ flows → icmp6 t = some code →
      (assocGet st.application_refs ("icmp6-" ++ t) = none →
        handleIcmp ft protocol flows [t] icmp4 icmp6 tn st =
          .ok ⟨st.applications ++ ["icmp6-" ++ t],
            st.application_refs ++ [("icmp6-" ++ t,
              ⟨"networking", "ip-protocol", "network-protocol",
                "icmp6-" ++ t, "ident-by-icmp6-type", code, 2⟩)],
            if ("icmp6-" ++ t) ∈ st.pan_application then st.pan_application
            else st.pan_application ++ ["icmp6-" ++ t]⟩) ∧
      ((assocGet st.application_refs ("icmp6-" ++ t)).isSome →
        handleIcmp ft protocol flows [t] icmp4 icmp6 tn st = .ok st)) := by
  constructor
  · intro hp hft hf4 hf6 hcode
    constructor
    · intro hnone
      simp [handleIcmp, icmpVersionPass, icmpTypesFold, hp, hft, hf4, hf6,
        hcode, hnone]
    · intro hsome
      simp [handleIcmp, icmpVersionPass, icmpTypesFold, hp, hft, hf4, hf6,
        hcode, hsome]
  · intro hp hft hf6 hf4 hcode
    constructor
    · intro hnone
      simp [handleIcmp, icmpVersionPass, icmpTypesFold, hp, hft, hf4, hf6,
        hcode, hnone]
    · intro hsome
      simp [handleIcmp, icmpVersionPass, icmpTypesFold, hp, hft, hf4, hf6,
        hcode, hsome]

/-- Witness for C2 amended: a fresh catalog builds and attaches the
`icmp-echo-request` entry with code 8 and risk 4. -/
theorem claim_C2_amended_witness :
    handleIcmp .inet ["icmp"] ["ip4-ip4"] ["echo-request"]
      (fun t => if t = "echo-request" then some 8 else none)
      (fun t => if t = "echo-request" then some 8 else none) "test-icmp"
      ⟨[], [], []⟩ =
      .ok ⟨["icmp-echo-request"],
        [("icmp-echo-request",
          ⟨"networking", "ip-protocol", "network-protocol",
            "icmp-echo-request", "ident-by-icmp-type", 8, 4⟩)],
        ["icmp-echo-request"]⟩ := by
  have h := ((claim_C2_amended .inet ["icmp"] ["ip4-ip4"] "echo-request"
    "test-icmp" 8
    (fun t => if t = "echo-request" then some 8 else none)
    (fun t => if t = "echo-request" then some 8 else none)
    ⟨[], [], []⟩).1 (by decide) (by decide) (by decide) (by decide)
    (by decide) ).1 rfl
  simpa using h

/-! ### Helper lemmas about flow computation -/

theorem countVersion_all_eq (v : Nat) (l : List IPAddr)
    (h : ∀ a ∈ l, a.version = v) : countVersion v l = l.length := by
  unfold countVersion
  rw [List.filter_eq_self.mpr]
  intro a ha
  simp [h a ha]

theorem countVersion_all_ne (v : Nat) (l : List IPAddr)
    (h : ∀ a ∈ l, a.version ≠ v) : countVersion v l = 0 := by
  unfold countVersion
  rw [List.length_eq_zero, List.filter_eq_nil_iff]
  intro a ha
  simp [h a ha]

/-- A term whose sources are all IPv4 and destinations all IPv6 (both
nonempty) computes exactly the two single-family flow pairs. -/
theorem computeFlows_v4src_v6dst (src dst : List IPAddr)
    (hs : src ≠ []) (hd : dst ≠ [])
    (h4 : ∀ a ∈ src, a.version = 4) (h6 : ∀ a ∈ dst, a.version = 6) :
    computeFlows src dst =
      ["ip4-src-only", "ip4-only", "ip6-dst-only", "ip6-only"] := by
  have hse : src.isEmpty = false := by
    cases src with
    | nil => exact absurd rfl hs
    | cons a l => rfl
  have hde : dst.isEmpty = false := by
    cases dst with
    | nil => exact absurd rfl hd
    | cons a l => rfl
  have c4s : countVersion 4 src = src.length := countVersion_all_eq 4 src h4
  have c6d : countVersion 6 dst = dst.length := countVersion_all_eq 6 dst h6
  have c6s : countVersion 6 src = 0 :=
    countVersion_all_ne 6 src (fun a ha => by rw [h4 a ha]; decide)
  have c4d : countVersion 4 dst = 0 :=
    countVersion_all_ne 4 dst (fun a ha => by rw [h6 a ha]; decide)
  have hsl : 0 < src.length := List.length_pos.mpr hs
  have hdl : 0 < dst.length := List.length_pos.mpr hd
  unfold computeFlows flowsForVersion
  rw [hse, hde, c4s, c6s, c4d, c6d]
  simp only [Nat.pos_iff_ne_zero.mp hsl, Nat.pos_iff_ne_zero.mp hdl, hsl, hdl,
    decide_True, decide_False, Bool.false_and, Bool.and_false, Bool.true_and,
    Bool.and_true, Bool.false_or, Bool.or_false, Bool.true_or, Bool.or_true,
    if_true, if_false, beq_iff_eq, ite_true, ite_false, gt_iff_lt]
  have e1 : (src.length == 0) = false := by
    simpa using Nat.pos_iff_ne_zero.mp hsl
  have e2 : (dst.length == 0) = false := by
    simpa using Nat.pos_iff_ne_zero.mp hdl
  simp only [e1, e2]
  decide

/-- A term with empty exclusion lists passes the exclusion subtraction
unchanged. -/
theorem applyExclusions_nil (removeAddr : List IPAddr → IPAddr → List IPAddr)
    (t : PolTerm) (hx1 : t.source_address_exclude = [])
    (hx2 : t.destination_address_exclude = []) :
    applyExclusions removeAddr t = t := by
  obtain ⟨nm, cm, sa, da, sx, dx, pr, dp, pa, it, ac, op, lg, ex, sr⟩ := t
  obtain rfl : sx = [] := hx1
  obtain rfl : dx = [] := hx2
  rfl

/-- Reduction of the loop preamble: a term that is not skipped, whose fixed
name is fresh and which is not expired reaches the remaining stages with its
name fixed, its exclusions subtracted and its name recorded in
`term_dup_check`. -/
theorem translateTerm_preamble
    (removeAddr : List IPAddr → IPAddr → List IPAddr)
    (icmp4 icmp6 : String → Option Nat) (ft : FilterType)
    (zf zt : String) (cur : Nat) (dup : List String) (st : BookState)
    (term : PolTerm)
    (h1 : term.stateless_reply = false)
    (h2 : "established" ∉ term.option)
    (h3 : "tcp-established" ∉ term.option)
    (hdup : FixTermLength term.name ∉ dup)
    (hexp : ∀ d, term.expiration = some d → cur < d) :
    translateTerm removeAddr icmp4 icmp6 ft zf zt cur dup st term =
      translateTermRest icmp4 icmp6 ft zf zt
        (dup ++ [FixTermLength term.name]) st
        (applyExclusions removeAddr (fixName term)) := by
  have hfx : (fixName term).name = FixTermLength term.name := rfl
  have hexpired : isExpired (fixName term) cur = false := by
    show (match term.expiration with
      | some d => decide (d ≤ cur)
      | none => false) = false
    cases he : term.expiration with
    | none => rfl
    | some d =>
        simp only [decide_eq_false_iff_not]
        exact Nat.not_le.mpr (hexp d he)
  unfold translateTerm
  rw [if_neg (by rw [h1]; exact Bool.false_ne_true)]
  rw [if_neg h2, if_neg h3]
  rw [hfx, if_neg hdup]
  rw [hexpired, if_neg Bool.false_ne_true]

/-- C3: under address-family `mixed`, a term that survives the earlier
checks, has no exclusions, a nonempty all-IPv4 source list and a nonempty
all-IPv6 destination list (so neither dual flow but both `ip4-only` and
`ip6-only` are computed), is dropped: the loop body returns a `skipped`
outcome, the generator state is untouched and no rule is produced. -/
theorem claim_C3_mixed_cross_family_drop
    (removeAddr : List IPAddr → IPAddr → List IPAddr)
    (icmp4 icmp6 : String → Option Nat) (zf zt : String) (cur : Nat)
    (dup : List String) (st : BookState) (term : PolTerm)
    (h1 : term.stateless_reply = false)
    (h2 : "established" ∉ term.option)
    (h3 : "tcp-established" ∉ term.option)
    (hdup : FixTermLength term.name ∉ dup)
    (hexp : ∀ d, term.expiration = some d → cur < d)
    (hx1 : term.source_address_exclude = [])
    (hx2 : term.destination_address_exclude = [])
    (hs : term.source_address ≠ []) (hd : term.destination_address ≠ [])
    (h4 : ∀ a ∈ term.source_address, a.version = 4)
    (h6 : ∀ a ∈ term.destination_address, a.version = 6) :
    translateTerm removeAddr icmp4 icmp6 .mixed zf zt cur dup st term =
      .ok (dup ++ [FixTermLength term.name], st, .skipped (fixName term)) := by
  rw [translateTerm_preamble removeAddr icmp4 icmp6 .mixed zf zt cur dup st
    term h1 h2 h3 hdup hexp]
  rw [applyExclusions_nil removeAddr (fixName term) hx1 hx2]
  have hgate : familyGate .mixed (fixName term).protocol
      (computeFlows (fixName term).source_address
        (fixName term).destination_address) = none := by
    show familyGate .mixed term.protocol
      (computeFlows term.source_address term.destination_address) = none
    rw [computeFlows_v4src_v6dst term.source_address
      term.destination_address hs hd h4 h6]
    rfl
  unfold translateTermRest
  rw [hgate]

/-- Witness for C3 at a concrete mixed-family term with one IPv4 source and
one IPv6 destination. -/
theorem claim_C3_mixed_cross_family_drop_witness :
    translateTerm (fun l _ => l) (fun _ => none) (fun _ => none) .mixed
      "trust" "untrust" 0 [] ⟨[], [], []⟩
      ⟨"t", [], [⟨4, "S", 0, 255, "10.0.0.0/24"⟩],
        [⟨6, "D", 0, 3, "2001:db8::/126"⟩], [], [], ["tcp"], [], [], [],
        ["accept"], [], [], none, false⟩ =
      .ok (["t"], ⟨[], [], []⟩,
        .skipped ⟨"t", [], [⟨4, "S", 0, 255, "10.0.0.0/24"⟩],
          [⟨6, "D", 0, 3, "2001:db8::/126"⟩], [], [], ["tcp"], [], [], [],
          ["accept"], [], [], none, false⟩) :=
  claim_C3_mixed_cross_family_drop (fun l _ => l) (fun _ => none)
    (fun _ => none) "trust" "untrust" 0 [] ⟨[], [], []⟩
    ⟨"t", [], [⟨4, "S", 0, 255, "10.0.0.0/24"⟩],
      [⟨6, "D", 0, 3, "2001:db8::/126"⟩], [], [], ["tcp"], [], [], [],
      ["accept"], [], [], none, false⟩
    rfl (by decide) (by decide) (by decide)
    (fun d h => by cases h) rfl rfl (by decide) (by decide)
    (by decide) (by decide)

/-! ### Helper lemmas about the address book -/

theorem string_append_right_ne (s a b : String) (h : a ≠ b) :
    s ++ a ≠ s ++ b := by
  intro he
  apply h
  have hd := congrArg String.data he
  rw [String.data_append, String.data_append] at hd
  exact String.ext (List.append_cancel_left hd)

/-- C1 counterexample: register `10.0.0.0/24` and then its strict subnet
`10.0.0.0/25` under the same zone and parent token; the subnet receives the
next ordinal name and the rendered address book contains entries for both
networks, contradicting the claim that only the supernet appears. -/
theorem claim_C1_counterexample :
    strictSubnetOf ⟨4, "NET", 0, 127, "10.0.0.0/25"⟩
      ⟨4, "NET", 0, 255, "10.0.0.0/24"⟩ = true ∧
    addressEntries (buildAddressBook
      (buildAddressBook [] "trust" ⟨4, "NET", 0, 255, "10.0.0.0/24"⟩)
      "trust" ⟨4, "NET", 0, 127, "10.0.0.0/25"⟩) =
      [("NET_0", "10.0.0.0/24"), ("NET_1", "10.0.0.0/25")] := by
  constructor
  · decide
  · decide

/-- C1 amended: if B is a strict subnet of A (with a distinct string form)
registered after A under the same zone and parent token, the subnet is NOT
collapsed into the supernet: B is appended under the next ordinal name, and
the rendered address book contains an `<address>` entry for A and also one
for B.  (The supernet-wins dedup of the render loop applies only when two
entries share a generated name, which cannot happen within one zone+token
bucket.) -/
theorem claim_C1_amended (z : String) (A B : IPAddr)
    (htok : B.parent_token = A.parent_token)
    (hsub : strictSubnetOf B A = true)
    (hne : A.text ≠ B.text) :
    (A.parent_token ++ "_0", A.text) ∈
      addressEntries (buildAddressBook (buildAddressBook [] z A) z B) ∧
    (A.parent_token ++ "_1", B.text) ∈
      addressEntries (buildAddressBook (buildAddressBook [] z A) z B) := by
  have hne' : (A.text == B.text) = false := beq_eq_false_iff_ne.mpr hne
  have k0 : ("_" : String) ++ toString (0 : Nat) = "_0" := by decide
  have k1 : ("_" : String) ++ toString (1 : Nat) = "_1" := by decide
  have hb1 : buildAddressBook [] z A =
      [(z, [(A.parent_token, [(A, A.parent_token ++ "_0")])])] := by
    unfold buildAddressBook
    simp [assocGet, assocSet]
    rw [String.append_assoc, k0]
  have hb2 : buildAddressBook (buildAddressBook [] z A) z B =
      [(z, [(A.parent_token,
        [(A, A.parent_token ++ "_0"), (B, A.parent_token ++ "_1")])])] := by
    rw [hb1]
    unfold buildAddressBook
    simp [assocGet, assocSet, htok, hne', k1]
    rw [String.append_assoc, k1]
  have hne01 : A.parent_token ++ "_0" ≠ A.parent_token ++ "_1" :=
    string_append_right_ne _ _ _ (by decide)
  have hdict : addressBookNamesDict (buildAddressBook
      (buildAddressBook [] z A) z B) =
      [(A.parent_token ++ "_0", A), (A.parent_token ++ "_1", B)] := by
    rw [hb2]
    unfold addressBookNamesDict
    simp [namesDictBucket, assocGet, assocSet, hne01]
  have hperm : (List.insertionSort addrKeyLe
      [A.parent_token ++ "_0", A.parent_token ++ "_1"]).Perm
      [A.parent_token ++ "_0", A.parent_token ++ "_1"] :=
    List.perm_insertionSort addrKeyLe _
  constructor
  · unfold addressEntries
    rw [hdict]
    refine List.mem_map.mpr ⟨A.parent_token ++ "_0", ?_, ?_⟩
    · exact hperm.mem_iff.mpr (by simp)
    · simp [assocGet]
  · unfold addressEntries
    rw [hdict]
    refine List.mem_map.mpr ⟨A.parent_token ++ "_1", ?_, ?_⟩
    · exact hperm.mem_iff.mpr (by simp)
    · simp [assocGet, hne01]

/-- Witness for C1 amended at the networks of the counterexample. -/
theorem claim_C1_amended_witness :
    ("NET_0", "10.0.0.0/24") ∈ addressEntries (buildAddressBook
      (buildAddressBook [] "trust" ⟨4, "NET", 0, 255, "10.0.0.0/24"⟩)
      "trust" ⟨4, "NET", 0, 127, "10.0.0.0/25"⟩) ∧
    ("NET_1", "10.0.0.0/25") ∈ addressEntries (buildAddressBook
      (buildAddressBook [] "trust" ⟨4, "NET", 0, 255, "10.0.0.0/24"⟩)
      "trust" ⟨4, "NET", 0, 127, "10.0.0.0/25"⟩) :=
  claim_C1_amended "trust" ⟨4, "NET", 0, 255, "10.0.0.0/24"⟩
    ⟨4, "NET", 0, 127, "10.0.0.0/25"⟩ rfl (by decide) (by decide)

/-! ### Helper lemmas about the shape of per-term results -/

theorem translateTermRest_outcome (icmp4 icmp6 : String → Option Nat)
    (ft : FilterType) (zf zt : String) (dup : List String) (st : BookState)
    (t : PolTerm) (dup' : List String) (st' : BookState) (out : Outcome)
    (h : translateTermRest icmp4 icmp6 ft zf zt dup st t =
      .ok (dup', st', out)) :
    dup' = dup ∧
    (out = .skipped t ∨
      ∃ pan, out = .kept { t with pan_application := pan }) := by
  unfold translateTermRest at h
  split at h
  · injection h with h'
    refine ⟨(congrArg (fun x => x.1) h').symm, .inl ?_⟩
    exact (congrArg (fun x => x.2.2) h').symm
  · split at h
    · exact absurd h (by simp)
    · split at h
      · exact absurd h (by simp)
      · split at h
        · exact absurd h (by simp)
        · injection h with h'
          refine ⟨(congrArg (fun x => x.1) h').symm, .inr ?_⟩
          exact ⟨_, (congrArg (fun x => x.2.2) h').symm⟩

theorem translateTerm_nonskipped_ok (removeAddr : List IPAddr → IPAddr → List IPAddr)
    (icmp4 icmp6 : String → Option Nat) (ft : FilterType) (zf zt : String)
    (cur : Nat) (dup : List String) (st : BookState) (term : PolTerm)
    (dup' : List String) (st' : BookState) (out : Outcome)
    (h1 : term.stateless_reply = false)
    (h2 : "established" ∉ term.option)
    (h3 : "tcp-established" ∉ term.option)
    (h : translateTerm removeAddr icmp4 icmp6 ft zf zt cur dup st term =
      .ok (dup', st', out)) :
    dup' = dup ++ [FixTermLength term.name] := by
  unfold translateTerm at h
  rw [if_neg (by rw [h1]; exact Bool.false_ne_true), if_neg h2,
    if_neg h3] at h
  split at h
  · exact absurd h (by simp)
  · split at h
    · injection h with h'
      exact (congrArg (fun x => x.1) h').symm
    · exact (translateTermRest_outcome icmp4 icmp6 ft zf zt _ st _ dup' st'
        out h).1

/-- C7 counterexample: an `icmp` term with no addresses and no explicit
ICMP types comes back from the loop with `pan_application = ["icmp"]`
(line 568 appends to the caller's term object), although its name and
address lists are untouched — a mutation outside the fields allowed by the
claim. -/
theorem claim_C7_counterexample :
    translateTerm (fun l _ => l) (fun _ => none) (fun _ => none) .inet
      "trust" "untrust" 0 [] ⟨[], [], []⟩
      ⟨"t", [], [], [], [], [], ["icmp"], [], [], [], ["accept"], [], [],
        none, false⟩ =
      .ok (["t"], ⟨[], [], []⟩,
        .kept ⟨"t", [], [], [], [], [], ["icmp"], [], ["icmp"], [],
          ["accept"], [], [], none, false⟩) ∧
    PolTerm.pan_application
      ⟨"t", [], [], [], [], [], ["icmp"], [], ["icmp"], [], ["accept"],
        [], [], none, false⟩ ≠
    PolTerm.pan_application
      ⟨"t", [], [], [], [], [], ["icmp"], [], [], [], ["accept"], [], [],
        none, false⟩ :=
  ⟨rfl, by decide⟩

/-- C7 amended: whenever the loop body returns without a fatal error, the
term it hands back differs from the input term at most in its name
(length-fixing), its source/destination address lists (exclusion
subtraction) and its `pan_application` list (ICMP application attachment);
every other field is unchanged. -/
theorem claim_C7_frame (removeAddr : List IPAddr → IPAddr → List IPAddr)
    (icmp4 icmp6 : String → Option Nat) (ft : FilterType) (zf zt : String)
    (cur : Nat) (dup : List String) (st : BookState) (term : PolTerm)
    (dup' : List String) (st' : BookState) (out : Outcome)
    (h : translateTerm removeAddr icmp4 icmp6 ft zf zt cur dup st term =
      .ok (dup', st', out)) :
    ∀ t', (out = .skipped t' ∨ out = .kept t') →
      t'.comment = term.comment ∧
      t'.source_address_exclude = term.source_address_exclude ∧
      t'.destination_address_exclude = term.destination_address_exclude ∧
      t'.protocol = term.protocol ∧
      t'.destination_port = term.destination_port ∧
      t'.icmp_type = term.icmp_type ∧
      t'.action = term.action ∧
      t'.option = term.option ∧
      t'.logging = term.logging ∧
      t'.expiration = term.expiration ∧
      t'.stateless_reply = term.stateless_reply := by
  intro t' hout
  unfold translateTerm at h
  split at h
  · have ho : out = .skipped term := by
      injection h with h'
      exact (congrArg (fun x => x.2.2) h').symm
    rw [ho] at hout
    rcases hout with he | he
    · injection he with ht
      rw [← ht]
      exact ⟨rfl, rfl, rfl, rfl, rfl, rfl, rfl, rfl, rfl, rfl, rfl⟩
    · simp at he
  · split at h
    · have ho : out = .skipped term := by
        injection h with h'
        exact (congrArg (fun x => x.2.2) h').symm
      rw [ho] at hout
      rcases hout with he | he
      · injection he with ht
        rw [← ht]
        exact ⟨rfl, rfl, rfl, rfl, rfl, rfl, rfl, rfl, rfl, rfl, rfl⟩
      · simp at he
    · split at h
      · have ho : out = .skipped term := by
          injection h with h'
          exact (congrArg (fun x => x.2.2) h').symm
        rw [ho] at hout
        rcases hout with he | he
        · injection he with ht
          rw [← ht]
          exact ⟨rfl, rfl, rfl, rfl, rfl, rfl, rfl, rfl, rfl, rfl, rfl⟩
        · simp at he
      · split at h
        · exact absurd h (by simp)
        · split at h
          · have ho : out = .skipped (fixName term) := by
              injection h with h'
              exact (congrArg (fun x => x.2.2) h').symm
            rw [ho] at hout
            rcases hout with he | he
            · injection he with ht
              rw [← ht]
              exact ⟨rfl, rfl, rfl, rfl, rfl, rfl, rfl, rfl, rfl, rfl, rfl⟩
            · simp at he
          · rcases (translateTermRest_outcome icmp4 icmp6 ft zf zt _ st _
                dup' st' out h).2 with ho | ⟨pan, ho⟩
            · rw [ho] at hout
              rcases hout with he | he
              · injection he with ht
                rw [← ht]
                exact ⟨rfl, rfl, rfl, rfl, rfl, rfl, rfl, rfl, rfl, rfl, rfl⟩
              · simp at he
            · rw [ho] at hout
              rcases hout with he | he
              · simp at he
              · injection he with ht
                rw [← ht]
                exact ⟨rfl, rfl, rfl, rfl, rfl, rfl, rfl, rfl, rfl, rfl, rfl⟩

/-- Witness for C7 at the icmp term of the counterexample: the surviving
term preserves all frame fields of the input. -/
theorem claim_C7_frame_witness :
    (⟨"t", [], [], [], [], [], ["icmp"], [], ["icmp"], [], ["accept"], [],
      [], none, false⟩ : PolTerm).protocol =
      (⟨"t", [], [], [], [], [], ["icmp"], [], [], [], ["accept"], [], [],
        none, false⟩ : PolTerm).protocol ∧
    (⟨"t", [], [], [], [], [], ["icmp"], [], ["icmp"], [], ["accept"], [],
      [], none, false⟩ : PolTerm).action =
      (⟨"t", [], [], [], [], [], ["icmp"], [], [], [], ["accept"], [], [],
        none, false⟩ : PolTerm).action :=
  ⟨(claim_C7_frame (fun l _ => l) (fun _ => none) (fun _ => none) .inet
      "trust" "untrust" 0 [] ⟨[], [], []⟩
      ⟨"t", [], [], [], [], [], ["icmp"], [], [], [], ["accept"], [], [],
        none, false⟩ ["t"] ⟨[], [], []⟩
      (.kept ⟨"t", [], [], [], [], [], ["icmp"], [], ["icmp"], [],
        ["accept"], [], [], none, false⟩) rfl
      ⟨"t", [], [], [], [], [], ["icmp"], [], ["icmp"], [], ["accept"],
        [], [], none, false⟩ (.inr rfl)).2.2.2.1,
   (claim_C7_frame (fun l _ => l) (fun _ => none) (fun _ => none) .inet
      "trust" "untrust" 0 [] ⟨[], [], []⟩
      ⟨"t", [], [], [], [], [], ["icmp"], [], [], [], ["accept"], [], [],
        none, false⟩ ["t"] ⟨[], [], []⟩
      (.kept ⟨"t", [], [], [], [], [], ["icmp"], [], ["icmp"], [],
        ["accept"], [], [], none, false⟩) rfl
      ⟨"t", [], [], [], [], [], ["icmp"], [], ["icmp"], [], ["accept"],
        [], [], none, false⟩ (.inr rfl)).2.2.2.2.2.2.1⟩

/-- Shared duplicate-name abort: if a non-skipped term completes the loop
body and a later non-skipped term in the same header carries the same fixed
name, the whole term loop aborts with the duplicate-term error. -/
theorem translateTerms_dup_abort
    (removeAddr : List IPAddr → IPAddr → List IPAddr)
    (icmp4 icmp6 : String → Option Nat) (ft : FilterType) (zf zt : String)
    (cur : Nat) (dup : List String) (st : BookState) (tA tB : PolTerm)
    (rest : List PolTerm) (dupA : List String) (stA : BookState)
    (outA : Outcome)
    (hA1 : tA.stateless_reply = false)
    (hA2 : "established" ∉ tA.option)
    (hA3 : "tcp-established" ∉ tA.option)
    (hB1 : tB.stateless_reply = false)
    (hB2 : "established" ∉ tB.option)
    (hB3 : "tcp-established" ∉ tB.option)
    (hname : FixTermLength tB.name = FixTermLength tA.name)
    (hAok : translateTerm removeAddr icmp4 icmp6 ft zf zt cur dup st tA =
      .ok (dupA, stA, outA)) :
    translateTerms removeAddr icmp4 icmp6 ft zf zt cur dup st
      (tA :: tB :: rest) =
      .error (.duplicateTerm
        ("You have a duplicate term: " ++ FixTermLength tB.name)) := by
  have hdupA : dupA = dup ++ [FixTermLength tA.name] :=
    translateTerm_nonskipped_ok removeAddr icmp4 icmp6 ft zf zt cur dup st
      tA dupA stA outA hA1 hA2 hA3 hAok
  have hBerr : translateTerm removeAddr icmp4 icmp6 ft zf zt cur dupA stA
      tB = .error (.duplicateTerm
        ("You have a duplicate term: " ++ FixTermLength tB.name)) := by
    unfold translateTerm
    rw [if_neg (by rw [hB1]; exact Bool.false_ne_true), if_neg hB2,
      if_neg hB3]
    rw [if_pos (show (fixName tB).name ∈ dupA by
      rw [show (fixName tB).name = FixTermLength tB.name from rfl, hdupA,
        hname]
      exact List.mem_append_right _ (List.mem_singleton_self _))]
    rfl
  have hinner : translateTerms removeAddr icmp4 icmp6 ft zf zt cur dupA stA
      (tB :: rest) = .error (.duplicateTerm
        ("You have a duplicate term: " ++ FixTermLength tB.name)) := by
    unfold translateTerms
    rw [hBerr]
  unfold translateTerms
  rw [hAok]
  simp only [hinner]

/-- C6: a surviving term whose fixed name equals that of a prior surviving
term in the same header makes the translation abort with the fatal
duplicate-term error, while the same term name under two different headers
is permitted: each header starts a fresh `term_dup_check`, so a policy with
two headers each containing a term of the same name translates
successfully. -/
theorem claim_C6_duplicate_term_scope
    (removeAddr : List IPAddr → IPAddr → List IPAddr)
    (icmp4 icmp6 : String → Option Nat) (ft : FilterType) (zf zt : String)
    (cur : Nat) (dup : List String) (st : BookState) (tA tB : PolTerm)
    (rest : List PolTerm) (dupA : List String) (stA : BookState)
    (outA : Outcome) (n : String)
    (hA1 : tA.stateless_reply = false)
    (hA2 : "established" ∉ tA.option)
    (hA3 : "tcp-established" ∉ tA.option)
    (hB1 : tB.stateless_reply = false)
    (hB2 : "established" ∉ tB.option)
    (hB3 : "tcp-established" ∉ tB.option)
    (hname : tB.name = tA.name)
    (hAok : translateTerm removeAddr icmp4 icmp6 ft zf zt cur dup st tA =
      .ok (dupA, stA, outA)) :
    translateTerms removeAddr icmp4 icmp6 ft zf zt cur dup st
      (tA :: tB :: rest) =
      .error (.duplicateTerm
        ("You have a duplicate term: " ++ FixTermLength tB.name)) ∧
    ∃ ps, translatePolicy removeAddr icmp4 icmp6 cur initialState
      [(⟨"trust", "untrust", .inet⟩,
        [⟨n, [], [], [], [], [], [], [], [], [], ["accept"], [], [],
          none, false⟩]),
       (⟨"internal", "external", .inet⟩,
        [⟨n, [], [], [], [], [], [], [], [], [], ["accept"], [], [],
          none, false⟩])] = .ok ps :=
  ⟨translateTerms_dup_abort removeAddr icmp4 icmp6 ft zf zt cur dup st tA
    tB rest dupA stA outA hA1 hA2 hA3 hB1 hB2 hB3
    (congrArg FixTermLength hname) hAok,
   ⟨_, rfl⟩⟩

/-- Witness for C6: two terms named `x` in one header abort translation;
the same name in two different headers translates successfully. -/
theorem claim_C6_duplicate_term_scope_witness :
    translateTerms (fun l _ => l) (fun _ => none) (fun _ => none) .inet
      "trust" "untrust" 0 [] ⟨[], [], []⟩
      [⟨"x", [], [], [], [], [], [], [], [], [], ["accept"], [], [], none,
        false⟩,
       ⟨"x", [], [], [], [], [], [], [], [], [], ["accept"], [], [],
        none, false⟩] =
      .error (.duplicateTerm ("You have a duplicate term: " ++
        FixTermLength "x")) ∧
    ∃ ps, translatePolicy (fun l _ => l) (fun _ => none) (fun _ => none) 0
      initialState
      [(⟨"trust", "untrust", .inet⟩,
        [⟨"x", [], [], [], [], [], [], [], [], [], ["accept"], [], [],
          none, false⟩]),
       (⟨"internal", "external", .inet⟩,
        [⟨"x", [], [], [], [], [], [], [], [], [], ["accept"], [], [],
          none, false⟩])] = .ok ps :=
  claim_C6_duplicate_term_scope (fun l _ => l) (fun _ => none)
    (fun _ => none) .inet "trust" "untrust" 0 [] ⟨[], [], []⟩
    ⟨"x", [], [], [], [], [], [], [], [], [], ["accept"], [], [], none,
      false⟩
    ⟨"x", [], [], [], [], [], [], [], [], [], ["accept"], [], [], none,
      false⟩
    [] ["x"] ⟨[], [], []⟩
    (.kept ⟨"x", [], [], [], [], [], [], [], [], [], ["accept"], [], [],
      none, false⟩)
    "x" rfl (by decide) (by decide) rfl (by decide) (by decide) rfl rfl

/-- C10: the duplicate-term check runs on names already truncated to the
31-character platform maximum, so two surviving terms with distinct
original names sharing their first 31 characters collide: translation
aborts with the duplicate-term error although the input names differ.
(`FixTermLength` is modelled from the spec, as `aclgenerator` is not part
of this repository's sources.) -/
theorem claim_C10_truncation_collision
    (removeAddr : List IPAddr → IPAddr → List IPAddr)
    (icmp4 icmp6 : String → Option Nat) (ft : FilterType) (zf zt : String)
    (cur : Nat) (dup : List String) (st : BookState) (tA tB : PolTerm)
    (rest : List PolTerm) (dupA : List String) (stA : BookState)
    (outA : Outcome)
    (hA1 : tA.stateless_reply = false)
    (hA2 : "established" ∉ tA.option)
    (hA3 : "tcp-established" ∉ tA.option)
    (hB1 : tB.stateless_reply = false)
    (hB2 : "established" ∉ tB.option)
    (hB3 : "tcp-established" ∉ tB.option)
    (hneq : tA.name ≠ tB.name)
    (htrunc : tA.name.data.take 31 = tB.name.data.take 31)
    (hAok : translateTerm removeAddr icmp4 icmp6 ft zf zt cur dup st tA =
      .ok (dupA, stA, outA)) :
    translateTerms removeAddr icmp4 icmp6 ft zf zt cur dup st
      (tA :: tB :: rest) =
      .error (.duplicateTerm
        ("You have a duplicate term: " ++ FixTermLength tB.name)) :=
  translateTerms_dup_abort removeAddr icmp4 icmp6 ft zf zt cur dup st tA
    tB rest dupA stA outA hA1 hA2 hA3 hB1 hB2 hB3
    (congrArg String.mk htrunc.symm) hAok

/-- Witness for C10: names 32 characters long differing only in the last
character collide after truncation. -/
theorem claim_C10_truncation_collision_witness :
    translateTerms (fun l _ => l) (fun _ => none) (fun _ => none) .inet
      "trust" "untrust" 0 [] ⟨[], [], []⟩
      [⟨"abcdefghijklmnopqrstuvwxyz01234X", [], [], [], [], [], [], [],
        [], [], ["accept"], [], [], none, false⟩,
       ⟨"abcdefghijklmnopqrstuvwxyz01234Y", [], [], [], [], [], [], [],
        [], [], ["accept"], [], [], none, false⟩] =
      .error (.duplicateTerm ("You have a duplicate term: " ++
        FixTermLength "abcdefghijklmnopqrstuvwxyz01234Y")) :=
  claim_C10_truncation_collision (fun l _ => l) (fun _ => none)
    (fun _ => none) .inet "trust" "untrust" 0 [] ⟨[], [], []⟩
    ⟨"abcdefghijklmnopqrstuvwxyz01234X", [], [], [], [], [], [], [], [],
      [], ["accept"], [], [], none, false⟩
    ⟨"abcdefghijklmnopqrstuvwxyz01234Y", [], [], [], [], [], [], [], [],
      [], ["accept"], [], [], none, false⟩
    [] ["abcdefghijklmnopqrstuvwxyz01234"] ⟨[], [], []⟩
    (.kept ⟨"abcdefghijklmnopqrstuvwxyz01234", [], [], [], [], [], [], [],
      [], [], ["accept"], [], [], none, false⟩)
    rfl (by decide) (by decide) rfl (by decide) (by decide)
    (by decide) (by decide) rfl

end PaloAlto
